import Mathlib

/-!
Verification of the poe2-price-checker core components against their
natural-language specification.

The development shallowly embeds the Python sources:

* `backend/cache.py` — `SearchResultCache` (fingerprinted LRU/TTL cache);
  the `hashlib.md5(...).hexdigest()` digest is embedded by a faithful,
  executable MD5 over `Nat`s reduced mod 2^32.
* `backend/rate_limiter.py` — `AdaptiveRateLimiter` (`_update_interval`,
  `handle_429`, `handle_success`).  Python floats are modelled as `ℚ`;
  the non-negative integers parsed from `X-Rate-Limit` headers are
  modelled as `ℕ`.
* `main.py` — `score_modifier_priority`, `build_tiered_query` and
  `progressive_search`.  The remote transport (`search_trade_api`,
  `fetch_trade_listings`) and the auxiliary poe2scout price source are
  modelled as oracles supplying the values their Python counterparts
  return; wall-clock time is an explicit `ℚ` parameter and each call is
  modelled as atomic.  A ghost log records every remote call issued,
  tagged with the tier it was issued for.
-/

/-! ## MD5 (hashlib.md5(...).hexdigest()), executable over ℕ mod 2^32 -/

def w32 : ℕ := 4294967296

def add32 (a b : ℕ) : ℕ := (a + b) % w32

def not32 (a : ℕ) : ℕ := 4294967295 - a

def rotl32 (x s : ℕ) : ℕ := ((x * 2 ^ s) % w32) + (x / 2 ^ (32 - s))

/-- Round constants `K[i] = ⌊|sin(i+1)|·2^32⌋` of RFC 1321. -/
def md5K : List ℕ :=
[3614090360, 3905402710, 606105819, 3250441966, 4118548399, 1200080426,
 2821735955, 4249261313, 1770035416, 2336552879, 4294925233, 2304563134,
 1804603682, 4254626195, 2792965006, 1236535329, 4129170786, 3225465664,
 643717713, 3921069994, 3593408605, 38016083, 3634488961, 3889429448,
 568446438, 3275163606, 4107603335, 1163531501, 2850285829, 4243563512,
 1735328473, 2368359562, 4294588738, 2272392833, 1839030562, 4259657740,
 2763975236, 1272893353, 4139469664, 3200236656, 681279174, 3936430074,
 3572445317, 76029189, 3654602809, 3873151461, 530742520, 3299628645,
 4096336452, 1126891415, 2878612391, 4237533241, 1700485571, 2399980690,
 4293915773, 2240044497, 1873313359, 4264355552, 2734768916, 1309151649,
 4149444226, 3174756917, 718787259, 3951481745]

/-- Per-round left-rotation amounts of RFC 1321. -/
def md5S : List ℕ :=
[7, 12, 17, 22, 7, 12, 17, 22, 7, 12, 17, 22, 7, 12, 17, 22,
 5, 9, 14, 20, 5, 9, 14, 20, 5, 9, 14, 20, 5, 9, 14, 20,
 4, 11, 16, 23, 4, 11, 16, 23, 4, 11, 16, 23, 4, 11, 16, 23,
 6, 10, 15, 21, 6, 10, 15, 21, 6, 10, 15, 21, 6, 10, 15, 21]

/-- UTF-8 encoding of one code point. -/
def utf8BytesOfChar (n : ℕ) : List ℕ :=
  if n < 128 then [n]
  else if n < 2048 then [192 + n / 64, 128 + n % 64]
  else if n < 65536 then [224 + n / 4096, 128 + n / 64 % 64, 128 + n % 64]
  else [240 + n / 262144, 128 + n / 4096 % 64, 128 + n / 64 % 64, 128 + n % 64]

/-- The UTF-8 bytes of a string (`str.encode()` in Python). -/
def strBytes (s : String) : List ℕ := s.toList.flatMap (fun c => utf8BytesOfChar c.toNat)

/-- MD5 padding: append `0x80`, zero-pad to 56 mod 64, append the
64-bit little-endian bit length. -/
def md5Pad (msg : List ℕ) : List ℕ :=
  let len := msg.length
  let padLen := (55 + 64 - len % 64) % 64
  let bitLen := (len * 8) % (2 ^ 64)
  msg ++ [128] ++ List.replicate padLen 0 ++
    (List.range 8).map (fun i => bitLen / 2 ^ (8 * i) % 256)

/-- Little-endian 32-bit words of one 64-byte block. -/
def md5Words (block : List ℕ) : List ℕ :=
  (List.range 16).map (fun j =>
    block.getD (4 * j) 0 + 256 * block.getD (4 * j + 1) 0 +
    65536 * block.getD (4 * j + 2) 0 + 16777216 * block.getD (4 * j + 3) 0)

/-- One of the 64 MD5 rounds on state `(a, b, c, d)`. -/
def md5Round (M : List ℕ) (st : ℕ × ℕ × ℕ × ℕ) (i : ℕ) : ℕ × ℕ × ℕ × ℕ :=
  let (a, b, c, d) := st
  let f :=
    if i < 16 then (b &&& c) ||| (not32 b &&& d)
    else if i < 32 then (d &&& b) ||| (not32 d &&& c)
    else if i < 48 then b ^^^ c ^^^ d
    else c ^^^ (b ||| not32 d)
  let g :=
    if i < 16 then i
    else if i < 32 then (5 * i + 1) % 16
    else if i < 48 then (3 * i + 5) % 16
    else (7 * i) % 16
  let tmp := add32 (add32 (add32 a f) (md5K.getD i 0)) (M.getD g 0)
  (d, add32 b (rotl32 tmp (md5S.getD i 0)), b, c)

/-- Process one 64-byte block into the running digest state. -/
def md5Block (st : ℕ × ℕ × ℕ × ℕ) (block : List ℕ) : ℕ × ℕ × ℕ × ℕ :=
  let M := md5Words block
  let (a, b, c, d) := (List.range 64).foldl (md5Round M) st
  let (a0, b0, c0, d0) := st
  (add32 a0 a, add32 b0 b, add32 c0 c, add32 d0 d)

/-- Split into 64-byte blocks; the fuel (first argument) only needs to be
at least the number of blocks, and `chunksOf64` passes the list length. -/
def chunksAux : ℕ → List ℕ → List (List ℕ)
  | 0, _ => []
  | _, [] => []
  | fuel + 1, x :: rest => (x :: rest).take 64 :: chunksAux fuel ((x :: rest).drop 64)

def chunksOf64 (l : List ℕ) : List (List ℕ) := chunksAux l.length l

def hexChar (n : ℕ) : Char := "0123456789abcdef".toList.getD n '0'

/-- Hex string of one 32-bit word, little-endian byte order. -/
def hexWordLE (x : ℕ) : List Char :=
  (List.range 4).flatMap (fun i =>
    let byte := x / 2 ^ (8 * i) % 256
    [hexChar (byte / 16), hexChar (byte % 16)])

/-- Embeds `hashlib.md5(s.encode()).hexdigest()`. -/
def md5Hex (s : String) : String :=
  let blocks := chunksOf64 (md5Pad (strBytes s))
  let (a, b, c, d) :=
    blocks.foldl md5Block (1732584193, 4023233417, 2562383102, 271733878)
  String.mk (hexWordLE a ++ hexWordLE b ++ hexWordLE c ++ hexWordLE d)

/-! ## backend/cache.py — SearchResultCache -/

/-- A discovered item modifier, holding the dict keys the embedded code
reads: `m.get('id', '')`, `m.get('enabled', True)` / `m.get("enabled")`,
`m.get("min")` and `m.get("text", "")`. -/
structure Modifier where
  id : Option String
  enabled : Option Bool
  minVal : Option ℚ
  text : String
deriving DecidableEq, Repr

/-- Embeds `m.get('enabled', True)` — a modifier with no `enabled` key counts as
enabled for the cache key. -/
def enabledForKey (m : Modifier) : Bool := m.enabled.getD true

/-- Lexicographic code-point comparison of character lists — the order
Python's `sorted` uses on `str`. -/
def charListLe : List Char → List Char → Bool
  | [], _ => true
  | _ :: _, [] => false
  | a :: as, b :: bs =>
    if a < b then true
    else if b < a then false
    else charListLe as bs

/-- Python's `≤` on `str` (lexicographic by code point). -/
def pyStrLe (a b : String) : Prop := charListLe a.toList b.toList = true

instance : DecidableRel pyStrLe := fun a b => by
  unfold pyStrLe
  infer_instance

/-- Python string slicing `s[:n]`, via the character list. -/
def strTake (s : String) (n : ℕ) : String := String.mk (s.toList.take n)

/-- Python `str.lower()`, via the character list. -/
def strLower (s : String) : String := String.mk (s.toList.map Char.toLower)

/-- Python `sep.join(parts)`, via the character lists. -/
def strJoin (sep : String) (parts : List String) : String :=
  String.mk (List.intercalate sep.toList (parts.map String.toList))

/-- Embeds `SearchResultCache._make_key`. -/
def make_key (item_name base_type : Option String) (rarity : String)
    (modifiers : List Modifier) : String :=
  let mod_ids : List String :=
    List.insertionSort pyStrLe
      ((modifiers.filter enabledForKey).map (fun m => m.id.getD ""))
  let mod_hash := strTake (md5Hex (strJoin "," mod_ids)) 8
  strLower (strJoin "|" [rarity, item_name.getD "", base_type.getD "", mod_hash])

structure CachedSearchResult (α : Type) where
  timestamp : ℚ
  result : α
deriving DecidableEq, Repr

structure SearchResultCache (α : Type) where
  max_entries : ℕ
  ttl_seconds : ℚ
  entries : List (String × CachedSearchResult α)
deriving DecidableEq, Repr

/-- Embeds `SearchResultCache.get`: TTL-expired entries are evicted as a side
effect; a hit refreshes recency by moving the entry to the end. -/
def SearchResultCache.get {α : Type} (c : SearchResultCache α) (now : ℚ)
    (item_name base_type : Option String) (rarity : String)
    (modifiers : List Modifier) :
    Option (CachedSearchResult α) × SearchResultCache α :=
  let key := make_key item_name base_type rarity modifiers
  match c.entries.lookup key with
  | none => (none, c)
  | some e =>
    if now - e.timestamp > c.ttl_seconds then
      (none, { c with entries := c.entries.filter (fun p => !(p.1 == key)) })
    else
      (some e,
       { c with entries := c.entries.filter (fun p => !(p.1 == key)) ++ [(key, e)] })

/-- Embeds `while len(self.cache) >= self.max_entries: self.cache.popitem(last=False)`.
(For the out-of-range corner `max_entries = 0` CPython raises `KeyError`
once the dict is empty; this model returns `[]`.  All theorems assume
`1 ≤ max_entries`, the range the settings layer guarantees.) -/
def popWhileFull {α : Type} (maxE : ℕ) :
    List (String × CachedSearchResult α) → List (String × CachedSearchResult α)
  | [] => []
  | x :: rest =>
    if maxE ≤ (x :: rest).length then popWhileFull maxE rest else x :: rest

/-- Embeds `SearchResultCache.put`.  `OrderedDict` assignment replaces an existing
key in place and appends a fresh key at the (most-recent) end. -/
def SearchResultCache.put {α : Type} (c : SearchResultCache α) (now : ℚ)
    (item_name base_type : Option String) (rarity : String)
    (modifiers : List Modifier) (result : α) : SearchResultCache α :=
  let key := make_key item_name base_type rarity modifiers
  let entries := popWhileFull c.max_entries c.entries
  let entries :=
    if entries.any (fun p => p.1 == key) then
      entries.map (fun p => if p.1 == key then (key, ⟨now, result⟩) else p)
    else entries ++ [(key, ⟨now, result⟩)]
  { c with entries := entries }

/-! ## backend/rate_limiter.py — AdaptiveRateLimiter

Floats are modelled as `ℚ`; the non-negative counts/seconds parsed from
`X-Rate-Limit` headers as `ℕ`. -/

structure RateLimitTier where
  max_requests : ℕ
  period_seconds : ℕ
  timeout_seconds : ℕ
deriving DecidableEq, Repr

structure RateLimitState where
  current_requests : ℕ
  period_seconds : ℕ
  timeout_remaining : ℕ
deriving DecidableEq, Repr

structure AdaptiveRateLimiter where
  default_interval : ℚ
  last_request : ℚ
  rate_limits : List (String × List RateLimitTier)
  rate_states : List (String × List RateLimitState)
  current_interval : ℚ
  consecutive_429s : ℕ
  backoff_until : ℚ
deriving DecidableEq, Repr

/-- The body of `_update_interval`'s inner loop for one index-aligned
`(limit, state)` pair, threading `min_safe_interval` through `acc`. -/
def scanPair (acc : ℚ) (limit : RateLimitTier) (state : RateLimitState) : ℚ :=
  if state.timeout_remaining > 0 then
    max acc (state.timeout_remaining : ℚ)
  else if limit.max_requests > 0 then
    let remaining : ℤ := (limit.max_requests : ℤ) - (state.current_requests : ℤ)
    let usage : ℚ := (state.current_requests : ℚ) / (limit.max_requests : ℚ)
    if usage > 8/10 then
      if remaining > 0 then
        max acc ((limit.period_seconds : ℚ) / (remaining : ℚ) * (3/2))
      else acc
    else if usage > 1/2 then
      if remaining > 0 then
        max acc ((limit.period_seconds : ℚ) / (remaining : ℚ))
      else acc
    else acc
  else acc

/-- Embeds `_update_interval`: returns the new `current_interval`.  When either
parsed map is empty the method returns early, leaving the interval
unchanged. -/
def updateIntervalCore (rate_limits : List (String × List RateLimitTier))
    (rate_states : List (String × List RateLimitState))
    (defaultInterval currentInterval : ℚ) : ℚ :=
  if rate_limits.isEmpty || rate_states.isEmpty then currentInterval
  else
    rate_limits.foldl
      (fun acc rl => ((rl.2.zip ((rate_states.lookup rl.1).getD []))).foldl
        (fun a p => scanPair a p.1 p.2) acc)
      defaultInterval

def AdaptiveRateLimiter.update_interval (l : AdaptiveRateLimiter) : AdaptiveRateLimiter :=
  { l with current_interval :=
      updateIntervalCore l.rate_limits l.rate_states l.default_interval l.current_interval }

/-- Embeds `handle_429`: returns the wait time and the updated limiter. -/
def AdaptiveRateLimiter.handle_429 (l : AdaptiveRateLimiter)
    (retry_after : Option ℤ) (now : ℚ) : ℚ × AdaptiveRateLimiter :=
  let c := l.consecutive_429s + 1
  let wait_time : ℚ :=
    match retry_after with
    | some r => if 0 < r then (r : ℚ) else min ((5 : ℚ) * 2 ^ (c - 1)) 120
    | none => min ((5 : ℚ) * 2 ^ (c - 1)) 120
  (wait_time,
   { l with
     consecutive_429s := c,
     backoff_until := now + wait_time,
     current_interval := max (l.current_interval * (3/2)) 5 })

/-- Embeds `handle_success`: the body runs only when `consecutive_429s > 0`. -/
def AdaptiveRateLimiter.handle_success (l : AdaptiveRateLimiter) : AdaptiveRateLimiter :=
  if l.consecutive_429s > 0 then
    { l with
      consecutive_429s := 0,
      current_interval := max (l.current_interval * (9/10)) l.default_interval }
  else l

/-- Modelled from the spec: the candidate safe intervals one index-aligned
`(tier, state)` pair contributes according to the interval-recomputation
sentence of §4.1 — `timeout_remaining` when nonzero; `1.5 × period/(max−current)`
when `current/max > 0.8` and `max > current`; `period/(max−current)` when
`0.5 < current/max ≤ 0.8` and `max > current`; nothing otherwise. -/
def specCandidates (t : RateLimitTier) (s : RateLimitState) : List ℚ :=
  if s.timeout_remaining ≠ 0 then [(s.timeout_remaining : ℚ)]
  else if s.current_requests < t.max_requests ∧
      (s.current_requests : ℚ) / (t.max_requests : ℚ) > 8/10 then
    [3/2 * ((t.period_seconds : ℚ) / ((t.max_requests : ℚ) - (s.current_requests : ℚ)))]
  else if s.current_requests < t.max_requests ∧
      1/2 < (s.current_requests : ℚ) / (t.max_requests : ℚ) ∧
      (s.current_requests : ℚ) / (t.max_requests : ℚ) ≤ 8/10 then
    [(t.period_seconds : ℚ) / ((t.max_requests : ℚ) - (s.current_requests : ℚ))]
  else []

/-- Modelled from the spec: the working interval is the maximum of all
candidates over all rules and index-aligned pairs, floored at the
configured default. -/
def specInterval (rate_limits : List (String × List RateLimitTier))
    (rate_states : List (String × List RateLimitState))
    (defaultInterval : ℚ) : ℚ :=
  rate_limits.foldl
    (fun acc rl => ((rl.2.zip ((rate_states.lookup rl.1).getD []))).foldl
      (fun a p => (specCandidates p.1 p.2).foldl max a) acc)
    defaultInterval

/-! ## main.py — modifier scoring and tiered query construction -/

/-- Python truthiness of an `Optional[str]` (`None` and `""` are falsy). -/
def pyTruthy (s : Option String) : Bool := !(s.getD "" == "")

/-- Does the first list occur at the head of the second? -/
def charsHead : List Char → List Char → Bool
  | [], _ => true
  | _ :: _, [] => false
  | a :: as, b :: bs => a == b && charsHead as bs

/-- Does the first list occur contiguously anywhere in the second? -/
def charsSub : List Char → List Char → Bool
  | needle, [] => needle.isEmpty
  | needle, b :: bs => charsHead needle (b :: bs) || charsSub needle bs

/-- Python `needle in hay` on strings. -/
def containsSub (hay needle : String) : Bool := charsSub needle.toList hay.toList

/-- Python `int()` on a number: truncation toward zero. -/
def pyInt (q : ℚ) : ℤ := if 0 ≤ q then ⌊q⌋ else ⌈q⌉

/-- Round-half-to-even on the exact rational value, as Python's `round`. -/
def halfEven (q : ℚ) : ℤ :=
  let f := ⌊q⌋
  let r := q - f
  if r < 1/2 then f
  else if 1/2 < r then f + 1
  else if f % 2 = 0 then f else f + 1

/-- Python `round(q, n)` on the exact rational value. -/
def pyRound (q : ℚ) (n : ℕ) : ℚ := (halfEven (q * 10 ^ n) : ℚ) / 10 ^ n

/-- Embeds `Plugin.score_modifier_priority`. -/
def score_modifier_priority (modifier_text : String) : ℕ :=
  let text := strLower modifier_text
  if containsSub text "all elemental resist" || containsSub text "all resistance" then 100
  else if containsSub text "maximum life" && containsSub text "%" then 95
  else if containsSub text "movement speed" then 90
  else if containsSub text "critical" && containsSub text "multiplier" then 85
  else if containsSub text "level" && containsSub text "skill" then 82
  else if containsSub text "maximum life" then 80
  else if ["fire resist", "cold resist", "lightning resist", "chaos resist"].any
      (fun r => containsSub text r) then 75
  else if containsSub text "attack speed" then 70
  else if containsSub text "cast speed" then 70
  else if containsSub text "critical" && containsSub text "chance" then 68
  else if containsSub text "physical damage" then 62
  else if ["strength", "dexterity", "intelligence"].any
      (fun a => containsSub text a) then 55
  else if containsSub text "mana" then 52
  else if ["armour", "evasion", "energy shield"].any
      (fun d => containsSub text d) then 45
  else if containsSub text "accuracy" then 40
  else 30

/-- Embeds `m.get("enabled") and m.get("id")` — the filter `build_tiered_query`
applies before building stat filters: `enabled` must be present and truthy
and `id` present and non-empty. -/
def enabledWithId (m : Modifier) : Bool :=
  m.enabled.getD false && !(m.id.getD "" == "")

/-- One entry of the Trade API `stats[0].filters` array. -/
structure StatFilter where
  statId : String
  value : Option ℚ
deriving DecidableEq, Repr

/-- The Trade API `stats[0]` count-group: `{filters, value.min}`. -/
structure StatsGroup where
  filters : List StatFilter
  minCount : ℕ
deriving DecidableEq, Repr

/-- Insert into a list sorted by descending score, after existing entries
of equal score — `sorted(key=..., reverse=True)` is stable. -/
def insertDesc (x : Modifier × ℕ) : List (Modifier × ℕ) → List (Modifier × ℕ)
  | [] => [x]
  | y :: ys => if y.2 < x.2 then x :: y :: ys else y :: insertDesc x ys

def sortDescStable (l : List (Modifier × ℕ)) : List (Modifier × ℕ) :=
  l.foldl (fun acc x => insertDesc x acc) []

/-- The tier-specific `query["query"]["stats"]` block of
`build_tiered_query` (the `rarity == "Unique"` early return is handled by
the caller `build_tiered_query` below). -/
def tier_stats (tier : ℕ) (modifiers : List Modifier) : Option StatsGroup :=
  match tier with
  | 0 =>
    if modifiers.isEmpty then none
    else
      let enabled_mods := modifiers.filter enabledWithId
      if enabled_mods.isEmpty then none
      else
        let stat_filters := enabled_mods.map (fun m =>
          ({ statId := m.id.getD "",
             value := match m.minVal with
               | some v => if v > 0 then some v else none
               | none => none } : StatFilter))
        some { filters := stat_filters, minCount := stat_filters.length }
  | 1 =>
    if modifiers.isEmpty then none
    else
      let enabled_mods := modifiers.filter enabledWithId
      if enabled_mods.isEmpty then none
      else
        let stat_filters := enabled_mods.map (fun m =>
          ({ statId := m.id.getD "",
             value := match m.minVal with
               | some v =>
                 let relaxed := pyInt (v * (8/10))
                 if relaxed > 0 then some (relaxed : ℚ) else none
               | none => none } : StatFilter))
        some { filters := stat_filters, minCount := max 1 (stat_filters.length - 1) }
  | 2 =>
    if modifiers.isEmpty then none
    else
      let enabled_mods := modifiers.filter enabledWithId
      if enabled_mods.isEmpty then none
      else
        let scored := enabled_mods.map (fun m => (m, score_modifier_priority m.text))
        let top_mods := (sortDescStable scored).take 3
        let stat_filters := top_mods.map (fun p =>
          ({ statId := p.1.id.getD "",
             value := match p.1.minVal with
               | some v =>
                 let relaxed := pyInt (v * (1/2))
                 if relaxed > 0 then some (relaxed : ℚ) else none
               | none => none } : StatFilter))
        if stat_filters.isEmpty then none
        else some { filters := stat_filters, minCount := min 2 stat_filters.length }
  | _ => none

/-- The modifier-independent part of the query `build_tiered_query`
assembles (name/type plus `type_filters`, `equipment_filters` and
`misc_filters`); the constant `status`/`sale_type`/`sort` parts are
omitted as literally constant. -/
structure TradeQueryBase where
  name : Option String
  typeName : Option String
  rarityUnique : Bool
  ilvlMin : Option ℤ
  runeSocketsMin : Option ℤ
  pdpsMin : Option ℤ
  edpsMin : Option ℤ
  gemLevelMin : Option ℤ
  corruptedOption : Option String
  qualityMin : Option ℤ
  armourMin : Option ℤ
  evasionMin : Option ℤ
  energyShieldMin : Option ℤ
  blockMin : Option ℤ
  spiritMin : Option ℤ
  apsMin : Option ℚ
  critMin : Option ℚ
deriving DecidableEq, Repr

def build_base_query (item_name base_type : Option String)
    (item_level socket_count : Option ℤ) (pdps edps : Option ℚ)
    (gem_level quality : Option ℤ)
    (armour evasion energy_shield block spirit : Option ℤ)
    (attack_speed crit_chance : Option ℚ) (corrupted : Option Bool)
    (rarity : Option String) : TradeQueryBase :=
  { name := if pyTruthy item_name then item_name else none,
    typeName := if pyTruthy base_type then base_type else none,
    rarityUnique := rarity == some "Unique",
    ilvlMin := match item_level with
      | some v => if v > 1 then some (max 1 (v - 10)) else none
      | none => none,
    runeSocketsMin := match socket_count with
      | some v => if v ≥ 2 then some (max 1 (v - 1)) else none
      | none => none,
    pdpsMin := match pdps with
      | some v => if v > 0 then some (pyInt (v * (7/10))) else none
      | none => none,
    edpsMin := match edps with
      | some v => if v > 0 then some (pyInt (v * (7/10))) else none
      | none => none,
    gemLevelMin := match gem_level with
      | some v => if v > 1 then some v else none
      | none => none,
    corruptedOption := corrupted.map (fun b => if b then "true" else "false"),
    qualityMin := match quality with
      | some v => if v > 0 then some (max 0 (v - 5)) else none
      | none => none,
    armourMin := match armour with
      | some v => if v > 50 then some (pyInt ((v : ℚ) * (7/10))) else none
      | none => none,
    evasionMin := match evasion with
      | some v => if v > 50 then some (pyInt ((v : ℚ) * (7/10))) else none
      | none => none,
    energyShieldMin := match energy_shield with
      | some v => if v > 30 then some (pyInt ((v : ℚ) * (7/10))) else none
      | none => none,
    blockMin := match block with
      | some v => if v > 10 then some (pyInt ((v : ℚ) * (7/10))) else none
      | none => none,
    spiritMin := match spirit with
      | some v => if v > 10 then some (pyInt ((v : ℚ) * (7/10))) else none
      | none => none,
    apsMin := match attack_speed with
      | some v => if v > 1 then some (pyRound (v * (9/10)) 2) else none
      | none => none,
    critMin := match crit_chance with
      | some v => if v > 5 then some (pyRound (v * (8/10)) 1) else none
      | none => none }

/-- The whole query descriptor. -/
structure TradeQuery where
  base : TradeQueryBase
  stats : Option StatsGroup
deriving DecidableEq, Repr

/-- Embeds `build_tiered_query`.  For `rarity == "Unique"` the function returns
before any tier branch, so no stat filters are attached.
(`linked_sockets` is accepted and ignored, as in the source.) -/
def build_tiered_query (tier : ℕ) (item_name base_type : Option String)
    (modifiers : List Modifier) (item_level socket_count : Option ℤ)
    (pdps edps : Option ℚ) (gem_level quality : Option ℤ)
    (armour evasion energy_shield block spirit : Option ℤ)
    (attack_speed crit_chance : Option ℚ) (corrupted : Option Bool)
    (rarity : Option String) : TradeQuery :=
  { base := build_base_query item_name base_type item_level socket_count pdps
      edps gem_level quality armour evasion energy_shield block spirit
      attack_speed crit_chance corrupted rarity,
    stats := if rarity == some "Unique" then none else tier_stats tier modifiers }

/-! ## main.py — progressive_search

The remote transport is an oracle: `search` models what
`search_trade_api` returns for the n-th search call (or that the awaited
call raised), `fetch` likewise for `fetch_trade_listings`.  Listings and
the poe2scout payload are opaque strings.  Sleeps have no observable
effect in the model; a ghost log records every remote call with the tier
it was issued for. -/

/-- The dict `search_trade_api` resolves to (or `raises`). -/
structure SearchResponse where
  success : Bool
  qid : Option String
  total : ℕ
  result : List String
  error : Option String
  retry_after : Option ℚ
deriving DecidableEq, Repr

/-- The dict `fetch_trade_listings` resolves to (or `raises`). -/
structure FetchResponse where
  success : Bool
  listings : List String
  icon : Option String
deriving DecidableEq, Repr

inductive RemoteOutcome (α : Type)
  | raises
  | returns (r : α)
deriving DecidableEq, Repr

structure Oracle where
  search : ℕ → RemoteOutcome SearchResponse
  fetch : ℕ → RemoteOutcome FetchResponse

/-- Ghost log entry: one remote call, tagged with its tier. -/
inductive RemoteCall
  | search (tier : ℕ) (q : TradeQuery)
  | fetch (tier : ℕ)
deriving DecidableEq, Repr

structure TierResult where
  tier : ℕ
  name : String
  description : String
  total : ℕ
  listings : List String
  fetched : ℕ
deriving DecidableEq, Repr

/-- The `result` dict `progressive_search` returns. -/
structure SessionResult where
  success : Bool
  tiers : List TierResult
  poe2scout_price : Option String
  trade_icon : Option String
  stopped_at_tier : ℕ
  total_searches : ℕ
  from_cache : Bool
  error : Option String
deriving DecidableEq, Repr

/-- The arguments of `progressive_search`. -/
structure SearchArgs where
  item_name : Option String
  base_type : Option String
  rarity : String
  modifiers : List Modifier
  item_level : Option ℤ
  socket_count : Option ℤ
  linked_sockets : Option ℤ
  pdps : Option ℚ
  edps : Option ℚ
  gem_level : Option ℤ
  quality : Option ℤ
  armour : Option ℤ
  evasion : Option ℤ
  energy_shield : Option ℤ
  block : Option ℤ
  spirit : Option ℤ
  attack_speed : Option ℚ
  crit_chance : Option ℚ
  corrupted : Option Bool
deriving DecidableEq, Repr

/-- Embeds `"rate limit" in search_result.get("error", "").lower()`. -/
def isRateLimitError (r : SearchResponse) : Bool :=
  containsSub (strLower (r.error.getD "")) "rate limit"

def tierName : ℕ → String
  | 0 => "Exact Match"
  | 1 => "Similar"
  | 2 => "Core Mods"
  | _ => "Base Only"

def tierDescription (a : SearchArgs) : ℕ → String
  | 0 => "All mods, 100% values"
  | 1 => "All mods, 80% values"
  | 2 => "Top 3 mods, 50% values"
  | _ =>
    (if pyTruthy a.base_type then a.base_type.getD "" else "Any") ++ " ilvl " ++
      (match a.item_level with
       | some v => if v = 0 then "any" else toString v
       | none => "any") ++ "+"

def mkTierEntry (a : SearchArgs) (tier total : ℕ) (listings : List String) : TierResult :=
  { tier := tier, name := tierName tier, description := tierDescription a tier,
    total := total, listings := listings, fetched := listings.length }

/-- Loop-carried state of `progressive_search`'s tier loop, plus the two
oracle cursors and the ghost log. -/
structure LoopState where
  tiers : List TierResult
  stopped_at_tier : ℕ
  total_searches : ℕ
  trade_icon : Option String
  sIdx : ℕ
  fIdx : ℕ
  log : List RemoteCall
deriving DecidableEq, Repr

/-- Result of the per-tier retry loop (`for attempt in range(max_retries+1)`). -/
inductive AttemptOutcome
  | raised (sIdx searches : ℕ) (log : List RemoteCall)
  | done (r : SearchResponse) (sIdx searches : ℕ) (log : List RemoteCall)
deriving DecidableEq, Repr

/-- The retry loop: `fuel` is the number of retries still allowed, so the
initial call passes `max_retries` (`for attempt in range(max_retries + 1)`
retries while `attempt < max_retries`).  A search that raises aborts the
tier body (caught by the tier's `except`) without bumping
`total_searches`, matching the increment's position after the awaited
call. -/
def attemptLoop (o : Oracle) (tier : ℕ) (q : TradeQuery) :
    ℕ → ℕ → ℕ → List RemoteCall → AttemptOutcome
  | 0, sIdx, searches, log =>
    match o.search sIdx with
    | .raises => .raised (sIdx + 1) searches (log ++ [RemoteCall.search tier q])
    | .returns r =>
      if r.success then .done r (sIdx + 1) (searches + 1) (log ++ [RemoteCall.search tier q])
      else .done r (sIdx + 1) (searches + 1) (log ++ [RemoteCall.search tier q])
  | fuel + 1, sIdx, searches, log =>
    match o.search sIdx with
    | .raises => .raised (sIdx + 1) searches (log ++ [RemoteCall.search tier q])
    | .returns r =>
      if r.success then .done r (sIdx + 1) (searches + 1) (log ++ [RemoteCall.search tier q])
      else if isRateLimitError r then
        attemptLoop o tier q fuel (sIdx + 1) (searches + 1) (log ++ [RemoteCall.search tier q])
      else .done r (sIdx + 1) (searches + 1) (log ++ [RemoteCall.search tier q])

/-- The tier iteration after the query is built: skip checks, retry loop,
listing fetch, tier recording and the early-stop decision; the boolean is
the early-stop `break`. -/
def runTierCore (o : Oracle) (a : SearchArgs) (maxRetries tier : ℕ)
    (q : TradeQuery) (st : LoopState) : LoopState × Bool :=
  if a.rarity == "Unique" && tier > 0 then (st, false)
  else if tier < 3 && a.modifiers.isEmpty then (st, false)
  else if tier == 3 && a.rarity == "Magic" then (st, false)
  else
    match attemptLoop o tier q maxRetries st.sIdx st.total_searches st.log with
    | .raised s c l => ({ st with sIdx := s, total_searches := c, log := l }, false)
    | .done r s c l =>
      let st := { st with sIdx := s, total_searches := c, log := l }
      if !r.success then (st, false)
      else if r.result.isEmpty then
        let e := mkTierEntry a tier r.total []
        ({ st with tiers := st.tiers ++ [e], stopped_at_tier := tier },
         decide (5 ≤ r.total))
      else
        match o.fetch st.fIdx with
        | .raises => ({ st with fIdx := st.fIdx + 1, log := st.log ++ [RemoteCall.fetch tier] }, false)
        | .returns fr =>
          let st := { st with fIdx := st.fIdx + 1, log := st.log ++ [RemoteCall.fetch tier] }
          let listings := if fr.success then fr.listings else []
          let icon :=
            if st.trade_icon == none && fr.success && pyTruthy fr.icon then fr.icon
            else st.trade_icon
          let e := mkTierEntry a tier r.total listings
          ({ st with trade_icon := icon, tiers := st.tiers ++ [e], stopped_at_tier := tier },
           decide (5 ≤ r.total))

/-- One iteration of `for tier in [0, 1, 2, 3]`: build the tier query
(`search_name`/`search_type` are fixed before the loop in the source, and
recomputing the pure expression per tier is observationally identical),
then run the tier body. -/
def runTier (o : Oracle) (a : SearchArgs) (maxRetries tier : ℕ)
    (st : LoopState) : LoopState × Bool :=
  let search_name := if a.rarity == "Unique" then a.item_name else none
  let search_type := if a.rarity == "Magic" then none else a.base_type
  runTierCore o a maxRetries tier
    (build_tiered_query tier search_name search_type a.modifiers
      a.item_level a.socket_count a.pdps a.edps a.gem_level a.quality a.armour
      a.evasion a.energy_shield a.block a.spirit a.attack_speed a.crit_chance
      a.corrupted (some a.rarity)) st

def tierLoop (o : Oracle) (a : SearchArgs) (maxRetries : ℕ) :
    List ℕ → LoopState → LoopState
  | [], st => st
  | t :: ts, st =>
    let p := runTier o a maxRetries t st
    if p.2 then p.1 else tierLoop o a maxRetries ts p.1

def initLoopState : LoopState :=
  { tiers := [], stopped_at_tier := 0, total_searches := 0, trade_icon := none,
    sIdx := 0, fIdx := 0, log := [] }

structure ProgOutput where
  result : SessionResult
  cache : SearchResultCache SessionResult
  log : List RemoteCall
deriving DecidableEq, Repr

/-- Embeds `progressive_search`.  `scout` is the poe2scout oracle: `some payload`
when `get_poe2scout_price` would return a successful result, `none` when
it fails, is unsuccessful, or raises (its `try/except` swallows the
error).  `now` is the wall-clock time of the call, which the model treats
as atomic. -/
def progressive_search (o : Oracle) (scout : Option String) (maxRetries : ℕ)
    (a : SearchArgs) (cache : SearchResultCache SessionResult) (now : ℚ) :
    ProgOutput :=
  let g := cache.get now a.item_name a.base_type a.rarity a.modifiers
  match g.1 with
  | some c =>
    { result :=
        { success := true, tiers := c.result.tiers,
          poe2scout_price := c.result.poe2scout_price,
          trade_icon := c.result.trade_icon,
          stopped_at_tier := c.result.stopped_at_tier,
          total_searches := 0, from_cache := true, error := none },
      cache := g.2, log := [] }
  | none =>
    let scoutPrice := if a.rarity == "Currency" && pyTruthy a.item_name then scout else none
    let st := tierLoop o a maxRetries [0, 1, 2, 3] initLoopState
    let err := if st.tiers.isEmpty then some "No listings found in any tier" else none
    let result : SessionResult :=
      { success := true, tiers := st.tiers, poe2scout_price := scoutPrice,
        trade_icon := st.trade_icon, stopped_at_tier := st.stopped_at_tier,
        total_searches := st.total_searches, from_cache := false, error := err }
    let cache2 :=
      if !st.tiers.isEmpty || scoutPrice.isSome then
        g.2.put now a.item_name a.base_type a.rarity a.modifiers result
      else g.2
    { result := result, cache := cache2, log := st.log }

/-- Pointwise-equal step functions fold identically. -/
theorem foldl_funext {α β : Type} {f g : β → α → β}
    (h : ∀ b a, f b a = g b a) :
    ∀ (l : List α) (b : β), List.foldl f b l = List.foldl g b l := by
  intro l
  induction l with
  | nil => intro b; rfl
  | cons x xs ih => intro b; simp only [List.foldl_cons, h, ih]

/-- One `(limit, state)` pair contributes to `_update_interval` exactly the
spec's candidate list folded with `max`. -/
theorem scanPair_eq_specFold (acc : ℚ) (t : RateLimitTier) (s : RateLimitState) :
    scanPair acc t s = (specCandidates t s).foldl max acc := by
  simp only [scanPair, specCandidates]
  by_cases ht : s.timeout_remaining > 0
  · rw [if_pos ht, if_pos (by omega : s.timeout_remaining ≠ 0)]
    simp
  · rw [if_neg ht, if_neg (by omega : ¬s.timeout_remaining ≠ 0)]
    by_cases hm : t.max_requests > 0
    case pos =>
      rw [if_pos hm]
      by_cases hu : (s.current_requests : ℚ) / (t.max_requests : ℚ) > 8/10
      · by_cases hr : (t.max_requests : ℤ) - (s.current_requests : ℤ) > 0
        · have hlt : s.current_requests < t.max_requests := by omega
          rw [if_pos hu, if_pos hr, if_pos ⟨hlt, hu⟩]
          simp only [List.foldl_cons, List.foldl_nil]
          congr 1
          push_cast
          ring
        · have hge : ¬ s.current_requests < t.max_requests := by omega
          rw [if_pos hu, if_neg hr, if_neg (fun hc => hge hc.1),
            if_neg (fun hc => hge hc.1)]
          simp
      · by_cases hu2 : (s.current_requests : ℚ) / (t.max_requests : ℚ) > 1/2
        · by_cases hr : (t.max_requests : ℤ) - (s.current_requests : ℤ) > 0
          · have hlt : s.current_requests < t.max_requests := by omega
            rw [if_neg hu, if_pos hu2, if_pos hr, if_neg (fun hc => hu hc.2),
              if_pos ⟨hlt, hu2, le_of_not_lt hu⟩]
            simp only [List.foldl_cons, List.foldl_nil]
            congr 1
            push_cast
            ring
          · have hge : ¬ s.current_requests < t.max_requests := by omega
            rw [if_neg hu, if_pos hu2, if_neg hr, if_neg (fun hc => hge hc.1),
              if_neg (fun hc => hge hc.1)]
            simp
        · rw [if_neg hu, if_neg hu2, if_neg (fun hc => hu hc.2),
            if_neg (fun hc => hu2 hc.2.1)]
          simp
    case neg =>
      have hlt : ¬ s.current_requests < t.max_requests := by omega
      rw [if_neg hm, if_neg (fun hc => hlt hc.1), if_neg (fun hc => hlt hc.1)]
      simp

/-- C2 counterexample input: one parsed rule with one tier. -/
def c2Limits : List (String × List RateLimitTier) := [("Ip", [⟨5, 5, 10⟩])]

/-- C2 counterexample: after parsing headers that carried a limit list but
no state list, `rate_states` is empty, `_update_interval` returns early and
the working interval stays at its prior value 5 (e.g. inflated by an
earlier 429), while the claim's formula — the maximum over all
index-aligned pairs (there are none), floored at the configured default
2 — gives 2. -/
theorem update_interval_counterexample :
    updateIntervalCore c2Limits [] 2 5 = 5 ∧
    specInterval c2Limits [] 2 = 2 ∧
    updateIntervalCore c2Limits [] 2 5 ≠ specInterval c2Limits [] 2 := by
  refine ⟨rfl, rfl, ?_⟩
  show (5 : ℚ) ≠ 2
  norm_num

/-- C2 (amended): whenever both parsed maps are nonempty — the situation
after `parse_headers` stored at least one limit list and one state list —
the recomputed working interval equals the maximum, over all rules and
index-aligned (tier, state) pairs, of the spec's candidates, floored at the
configured default; when either map is empty `_update_interval` leaves the
interval unchanged. -/
theorem update_interval_spec
    (L : List (String × List RateLimitTier))
    (S : List (String × List RateLimitState)) (d c : ℚ)
    (hL : L ≠ []) (hS : S ≠ []) :
    updateIntervalCore L S d c = specInterval L S d := by
  unfold updateIntervalCore specInterval
  rw [if_neg (by simp [List.isEmpty_iff, hL, hS])]
  exact foldl_funext
    (fun b rl => foldl_funext
      (fun (a : ℚ) (p : RateLimitTier × RateLimitState) =>
        scanPair_eq_specFold a p.1 p.2) _ b) L d

/-- Witness for `update_interval_spec` at a concrete parsed policy. -/
theorem update_interval_spec_witness :
    updateIntervalCore [("Ip", [⟨5, 5, 10⟩])] [("Ip", [⟨4, 5, 0⟩])] 2 99 =
      specInterval [("Ip", [⟨5, 5, 10⟩])] [("Ip", [⟨4, 5, 0⟩])] 2 :=
  update_interval_spec _ _ 2 99 (by decide) (by decide)

/-- C3: `handle_429` increments the consecutive-rejection counter; returns
`retry_after` as the wait time when provided and positive, otherwise
`min(5·2^(rejections−1), 120)` for the incremented rejection count; sets
`backoff_until = now + wait`; and sets the working interval to
`max(1.5 × previous, 5)`. -/
theorem handle_429_spec (l : AdaptiveRateLimiter) (retry_after : Option ℤ) (now : ℚ) :
    ((l.handle_429 retry_after now).2.consecutive_429s = l.consecutive_429s + 1)
    ∧ (∀ r : ℤ, retry_after = some r → 0 < r →
        (l.handle_429 retry_after now).1 = (r : ℚ))
    ∧ ((∀ r : ℤ, retry_after = some r → r ≤ 0) →
        (l.handle_429 retry_after now).1 =
          min ((5 : ℚ) * 2 ^ (l.consecutive_429s + 1 - 1)) 120)
    ∧ ((l.handle_429 retry_after now).2.backoff_until =
        now + (l.handle_429 retry_after now).1)
    ∧ ((l.handle_429 retry_after now).2.current_interval =
        max (l.current_interval * (3/2)) 5) := by
  refine ⟨rfl, ?_, ?_, rfl, rfl⟩
  · intro r hr hpos
    subst hr
    show (if 0 < r then (r : ℚ) else _) = (r : ℚ)
    rw [if_pos hpos]
  · intro hall
    cases retry_after with
    | none => rfl
    | some r =>
      have hr := hall r rfl
      show (if 0 < r then (r : ℚ) else _) = _
      rw [if_neg (by omega)]

/-- A limiter in its initial state (integral sample values). -/
def sampleLimiter : AdaptiveRateLimiter :=
  { default_interval := 2, last_request := 0, rate_limits := [],
    rate_states := [], current_interval := 2, consecutive_429s := 0,
    backoff_until := 0 }

/-- Witness for `handle_429_spec`: positive `Retry-After` is returned
verbatim; without one the first backoff is `min(5·2⁰, 120)`. -/
theorem handle_429_spec_witness :
    (sampleLimiter.handle_429 (some 7) 0).1 = ((7 : ℤ) : ℚ) ∧
    (sampleLimiter.handle_429 none 0).1 =
      min ((5 : ℚ) * 2 ^ (sampleLimiter.consecutive_429s + 1 - 1)) 120 :=
  ⟨(handle_429_spec sampleLimiter (some 7) 0).2.1 7 rfl (by norm_num),
   (handle_429_spec sampleLimiter none 0).2.2.1 (fun r h => Option.noConfusion h)⟩

/-- A limiter with an inflated interval but no outstanding rejections. -/
def calmLimiter : AdaptiveRateLimiter :=
  { default_interval := 2, last_request := 0, rate_limits := [],
    rate_states := [], current_interval := 10, consecutive_429s := 0,
    backoff_until := 0 }

/-- C7 counterexample: with `consecutive_429s = 0` and an interval of 10
(above the default 2), a success leaves the interval at 10 — it is not
relaxed by the claimed 0.9 factor on each success. -/
theorem handle_success_counterexample :
    calmLimiter.handle_success = calmLimiter ∧
    calmLimiter.handle_success.current_interval ≠
      max (calmLimiter.current_interval * (9/10)) calmLimiter.default_interval := by
  constructor
  · rfl
  · show (10 : ℚ) ≠ max (10 * (9/10)) 2
    rw [show ((10 : ℚ) * (9/10)) = 9 by norm_num, max_eq_left (by norm_num : (2:ℚ) ≤ 9)]
    norm_num

/-- C7 (amended): `handle_success` is a no-op when the rejection counter is
already zero; when the counter is positive it resets it to zero and sets
the interval to `max(0.9 × interval, default)`; and under the reachable
bounds `0 ≤ default ≤ interval` it never increases the interval and never
takes it below the default. -/
theorem handle_success_spec (l : AdaptiveRateLimiter) :
    (l.consecutive_429s = 0 → l.handle_success = l)
    ∧ (0 < l.consecutive_429s →
        l.handle_success.consecutive_429s = 0 ∧
        l.handle_success.current_interval =
          max (l.current_interval * (9/10)) l.default_interval)
    ∧ (0 ≤ l.default_interval → l.default_interval ≤ l.current_interval →
        l.handle_success.current_interval ≤ l.current_interval ∧
        l.default_interval ≤ l.handle_success.current_interval) := by
  unfold AdaptiveRateLimiter.handle_success
  by_cases h : 0 < l.consecutive_429s
  · rw [if_pos h]
    refine ⟨fun hz => absurd hz (by omega), fun _ => ⟨rfl, rfl⟩, fun hd hdi => ?_⟩
    constructor
    · exact max_le (by linarith) hdi
    · exact le_max_right _ _
  · rw [if_neg h]
    exact ⟨fun _ => rfl, fun hp => absurd hp h,
      fun _ hdi => ⟨le_refl _, hdi⟩⟩

/-- A limiter with two pending rejections and an inflated interval. -/
def hotLimiter : AdaptiveRateLimiter :=
  { default_interval := 2, last_request := 0, rate_limits := [],
    rate_states := [], current_interval := 10, consecutive_429s := 2,
    backoff_until := 0 }

/-- Witness for `handle_success_spec` at a limiter with pending 429s. -/
theorem handle_success_spec_witness :
    hotLimiter.handle_success.current_interval =
      max (hotLimiter.current_interval * (9/10)) hotLimiter.default_interval ∧
    hotLimiter.handle_success.current_interval ≤ hotLimiter.current_interval :=
  ⟨((handle_success_spec hotLimiter).2.1 (by decide)).2,
   ((handle_success_spec hotLimiter).2.2 (by decide) (by decide)).1⟩

/-! ## Cache theorems (C5, C6) -/

theorem charListLe_total : ∀ a b, charListLe a b = true ∨ charListLe b a = true := by
  intro a
  induction a with
  | nil => intro b; left; rfl
  | cons x xs ih =>
    intro b
    cases b with
    | nil => right; rfl
    | cons y ys =>
      rcases lt_trichotomy x y with h | h | h
      · left; simp [charListLe, h]
      · subst h
        rcases ih ys with h2 | h2
        · left; simpa [charListLe, lt_irrefl] using h2
        · right; simpa [charListLe, lt_irrefl] using h2
      · right; simp [charListLe, h]

theorem charListLe_trans :
    ∀ a b c, charListLe a b = true → charListLe b c = true →
      charListLe a c = true := by
  intro a
  induction a with
  | nil => intro b c _ _; rfl
  | cons x xs ih =>
    intro b c hab hbc
    cases b with
    | nil => simp [charListLe] at hab
    | cons y ys =>
      cases c with
      | nil => simp [charListLe] at hbc
      | cons z zs =>
        rcases lt_trichotomy x y with hxy | hxy | hxy
        · rcases lt_trichotomy y z with hyz | hyz | hyz
          · simp [charListLe, lt_trans hxy hyz]
          · subst hyz; simp [charListLe, hxy]
          · simp [charListLe, lt_asymm hyz, hyz] at hbc
        · subst hxy
          simp only [charListLe, lt_irrefl, if_false] at hab
          rcases lt_trichotomy x z with h | h | h
          · simp [charListLe, h]
          · subst h
            simp only [charListLe, lt_irrefl, if_false] at hbc ⊢
            exact ih ys zs hab hbc
          · simp [charListLe, lt_asymm h, h] at hbc
        · simp [charListLe, lt_asymm hxy, hxy] at hab

theorem charListLe_antisymm :
    ∀ a b, charListLe a b = true → charListLe b a = true → a = b := by
  intro a
  induction a with
  | nil =>
    intro b _ hba
    cases b with
    | nil => rfl
    | cons y ys => simp [charListLe] at hba
  | cons x xs ih =>
    intro b hab hba
    cases b with
    | nil => simp [charListLe] at hab
    | cons y ys =>
      rcases lt_trichotomy x y with h | h | h
      · simp [charListLe, lt_asymm h, h] at hba
      · subst h
        simp only [charListLe, lt_irrefl, if_false] at hab hba
        rw [ih ys hab hba]
      · simp [charListLe, lt_asymm h, h] at hab

instance : IsTotal String pyStrLe :=
  ⟨fun a b => charListLe_total a.toList b.toList⟩

instance : IsTrans String pyStrLe :=
  ⟨fun a b c hab hbc => charListLe_trans a.toList b.toList c.toList hab hbc⟩

instance : IsAntisymm String pyStrLe :=
  ⟨fun a b hab hba =>
    String.toList_inj.mp (charListLe_antisymm a.toList b.toList hab hba)⟩

/-- C6: the cache fingerprint is invariant under permutation of the
modifier list: two modifier lists that are permutations of each other
(each record carrying its enabled flag with it) produce the same
`_make_key` for the same name, base type and rarity. -/
theorem make_key_perm_invariant (item_name base_type : Option String)
    (rarity : String) (mods1 mods2 : List Modifier)
    (h : mods1.Perm mods2) :
    make_key item_name base_type rarity mods1 =
      make_key item_name base_type rarity mods2 := by
  unfold make_key
  have hperm :
      (List.insertionSort pyStrLe
        ((mods1.filter enabledForKey).map (fun m => m.id.getD ""))).Perm
      (List.insertionSort pyStrLe
        ((mods2.filter enabledForKey).map (fun m => m.id.getD ""))) :=
    (List.perm_insertionSort _ _).trans
      (((h.filter _).map _).trans (List.perm_insertionSort _ _).symm)
  rw [List.eq_of_perm_of_sorted hperm
    (List.sorted_insertionSort _ _) (List.sorted_insertionSort _ _)]

/-- Witness for `make_key_perm_invariant`: swapping two modifiers leaves
the fingerprint unchanged. -/
theorem make_key_perm_invariant_witness :
    make_key (some "Item") (some "Belt") "Rare"
      [⟨some "mod.a", some true, none, "a"⟩, ⟨some "mod.b", some false, none, "b"⟩] =
    make_key (some "Item") (some "Belt") "Rare"
      [⟨some "mod.b", some false, none, "b"⟩, ⟨some "mod.a", some true, none, "a"⟩] :=
  make_key_perm_invariant _ _ _ _ _
    (List.Perm.swap _ _ _)

theorem popWhileFull_of_lt {α : Type} (maxE : ℕ)
    (c : List (String × CachedSearchResult α)) (h : c.length < maxE) :
    popWhileFull maxE c = c := by
  cases c with
  | nil => rfl
  | cons x rest =>
    unfold popWhileFull
    rw [if_neg (not_le.mpr h)]

theorem popWhileFull_length {α : Type} (maxE : ℕ) (h : 1 ≤ maxE) :
    ∀ (c : List (String × CachedSearchResult α)),
      (popWhileFull maxE c).length = min c.length (maxE - 1) := by
  intro c
  induction c with
  | nil => simp [popWhileFull]
  | cons x rest ih =>
    unfold popWhileFull
    by_cases hc : maxE ≤ (x :: rest).length
    · rw [if_pos hc, ih]
      simp only [List.length_cons] at hc ⊢
      omega
    · rw [if_neg hc]
      simp only [List.length_cons] at hc ⊢
      omega

theorem popWhileFull_at_cap {α : Type} (maxE : ℕ)
    (c : List (String × CachedSearchResult α))
    (h : c.length = maxE) : popWhileFull maxE c = c.drop 1 := by
  cases c with
  | nil => simp [popWhileFull]
  | cons x rest =>
    unfold popWhileFull
    rw [if_pos (by omega : maxE ≤ (x :: rest).length)]
    rw [popWhileFull_of_lt maxE rest (by simp at h; omega)]
    simp

theorem any_key_eq_false {α : Type}
    (entries : List (String × CachedSearchResult α)) (k : String)
    (h : k ∉ entries.map Prod.fst) :
    entries.any (fun p => p.1 == k) = false := by
  rw [List.any_eq_false]
  intro p hp
  simp only [beq_iff_eq]
  exact fun he => h (List.mem_map.mpr ⟨p, hp, he⟩)

/-- A single `put` call's arguments (the payload is carried separately). -/
structure PutCall where
  item_name : Option String
  base_type : Option String
  rarity : String
  modifiers : List Modifier
deriving DecidableEq, Repr

def putCallKey (p : PutCall) : String :=
  make_key p.item_name p.base_type p.rarity p.modifiers

/-- Fold a sequence of `put`s over a cache. -/
def applyPuts {α : Type} (now : ℚ) (calls : List (PutCall × α))
    (c : SearchResultCache α) : SearchResultCache α :=
  calls.foldl
    (fun acc pc =>
      acc.put now pc.1.item_name pc.1.base_type pc.1.rarity pc.1.modifiers pc.2)
    c

theorem applyPuts_max {α : Type} (now : ℚ) :
    ∀ (calls : List (PutCall × α)) (c : SearchResultCache α),
      (applyPuts now calls c).max_entries = c.max_entries := by
  intro calls
  induction calls with
  | nil => intro c; rfl
  | cons pc rest ih =>
    intro c
    show (applyPuts now rest
      (c.put now pc.1.item_name pc.1.base_type pc.1.rarity pc.1.modifiers pc.2)).max_entries =
      c.max_entries
    rw [ih]
    rfl

theorem drop_append_single {l : List String} {k : String} :
    ∀ {n : ℕ}, n ≤ l.length → (l ++ [k]).drop n = l.drop n ++ [k] := by
  induction l with
  | nil =>
    intro n h
    simp only [List.length_nil] at h
    have hz : n = 0 := by omega
    subst hz
    rfl
  | cons x xs ih =>
    intro n h
    cases n with
    | zero => rfl
    | succ m =>
      simp only [List.cons_append, List.drop_succ_cons]
      exact ih (by simp only [List.length_cons] at h; omega)

/-- Applying `put` with a key not yet in a cache within its capacity: the oldest
entry is evicted exactly when the cache is full, and the new entry is
appended at the most-recent end. -/
theorem put_fresh_keys {α : Type} (c : SearchResultCache α) (now : ℚ)
    (n b : Option String) (r : String) (mods : List Modifier) (res : α)
    (hle : c.entries.length ≤ c.max_entries)
    (hfresh : make_key n b r mods ∉ c.entries.map Prod.fst) :
    (c.put now n b r mods res).entries.map Prod.fst =
      ((c.entries.map Prod.fst).drop (c.entries.length + 1 - c.max_entries)) ++
        [make_key n b r mods] := by
  simp only [SearchResultCache.put]
  by_cases hlt : c.entries.length < c.max_entries
  · rw [popWhileFull_of_lt _ _ hlt, any_key_eq_false _ _ hfresh]
    have hz : c.entries.length + 1 - c.max_entries = 0 := by omega
    simp [hz]
  · have heq : c.entries.length = c.max_entries := by omega
    rw [popWhileFull_at_cap _ _ heq]
    have hfresh' : make_key n b r mods ∉ (c.entries.drop 1).map Prod.fst := by
      intro hm
      rcases List.mem_map.mp hm with ⟨p, hp, he⟩
      exact hfresh (List.mem_map.mpr ⟨p, List.drop_subset 1 c.entries hp, he⟩)
    rw [any_key_eq_false _ _ hfresh']
    have ho : c.entries.length + 1 - c.max_entries = 1 := by omega
    simp [ho, List.map_drop]

/-- The keys left after folding a sequence of fresh-key `put`s over an
initially empty cache of capacity `N ≥ 1`: exactly the most recent
`min(#puts, N)` keys, in insertion order. -/
theorem applyPuts_keys {α : Type} (N : ℕ) (ttl now : ℚ) (hN : 1 ≤ N) :
    ∀ (calls : List (PutCall × α)),
      (calls.map (fun pc => putCallKey pc.1)).Nodup →
      (applyPuts now calls ⟨N, ttl, []⟩).entries.map Prod.fst =
        (calls.map (fun pc => putCallKey pc.1)).drop (calls.length - N) := by
  intro calls
  induction calls using List.reverseRecOn with
  | nil => intro _; simp [applyPuts]
  | append_singleton calls pc ih =>
    intro hnd
    have hmap : ((calls ++ [pc]).map (fun q => putCallKey q.1)) =
        calls.map (fun q => putCallKey q.1) ++ [putCallKey pc.1] := by simp
    rw [hmap] at hnd
    rw [List.nodup_append] at hnd
    have hndK := hnd.1
    have hfreshK : putCallKey pc.1 ∉ calls.map (fun q => putCallKey q.1) := by
      intro hm
      exact (hnd.2.2 hm) (List.mem_singleton.mpr rfl)
    have happ : applyPuts now (calls ++ [pc]) (⟨N, ttl, []⟩ : SearchResultCache α) =
        (applyPuts now calls ⟨N, ttl, []⟩).put now pc.1.item_name pc.1.base_type
          pc.1.rarity pc.1.modifiers pc.2 := by
      simp [applyPuts, List.foldl_append]
    have ihK := ih hndK
    have hmaxC : (applyPuts now calls (⟨N, ttl, []⟩ : SearchResultCache α)).max_entries = N :=
      applyPuts_max now calls _
    have hlenC : (applyPuts now calls (⟨N, ttl, []⟩ : SearchResultCache α)).entries.length =
        min calls.length N := by
      have := congrArg List.length ihK
      simp only [List.length_map, List.length_drop] at this
      rw [this]
      omega
    have hput := put_fresh_keys (applyPuts now calls ⟨N, ttl, []⟩) now
      pc.1.item_name pc.1.base_type pc.1.rarity pc.1.modifiers pc.2
      (by rw [hmaxC, hlenC]; omega)
      (by
        rw [ihK]
        intro hm
        exact hfreshK (List.drop_subset _ _ hm))
    rw [happ]
    show ((applyPuts now calls ⟨N, ttl, []⟩).put now pc.1.item_name pc.1.base_type
        pc.1.rarity pc.1.modifiers pc.2).entries.map Prod.fst = _
    rw [hput, ihK, hmaxC, hlenC, hmap, List.drop_drop]
    rw [drop_append_single
      (by simp only [List.length_map, List.length_append, List.length_singleton]; omega)]
    congr 2
    simp only [List.length_append, List.length_map, List.length_singleton]
    omega

/-- C5: `put` never lets the cache exceed `max_entries` (for any
in-range capacity `≥ 1`), and inserting a sequence of distinct
fingerprints into an empty cache of capacity `N` leaves exactly the
most recent `min(#inserts, N)` of them, oldest evicted first: the keys
left are `keys.drop (#inserts − N)` — for `N + 1` distinct inserts,
exactly the `N` most recently used entries. -/
theorem put_capacity_lru :
    (∀ (α : Type) (c : SearchResultCache α) (now : ℚ) (n b : Option String)
       (r : String) (mods : List Modifier) (res : α), 1 ≤ c.max_entries →
       (c.put now n b r mods res).entries.length ≤ c.max_entries)
    ∧ (∀ (α : Type) (N : ℕ) (ttl now : ℚ) (calls : List (PutCall × α)),
        1 ≤ N → (calls.map (fun pc => putCallKey pc.1)).Nodup →
        (applyPuts now calls ⟨N, ttl, []⟩).entries.map Prod.fst =
          (calls.map (fun pc => putCallKey pc.1)).drop (calls.length - N)) := by
  constructor
  · intro α c now n b r mods res h1
    simp only [SearchResultCache.put]
    split
    · rw [List.length_map, popWhileFull_length _ h1]
      omega
    · rw [List.length_append, popWhileFull_length _ h1]
      simp only [List.length_singleton]
      omega
  · intro α N ttl now calls hN hnd
    exact applyPuts_keys N ttl now hN calls hnd

/-- Two distinct-fingerprint put calls. -/
def putCallA : PutCall := ⟨some "Alpha", some "Belt", "Rare", []⟩

def putCallB : PutCall := ⟨some "Beta", some "Belt", "Rare", []⟩

/-- Witness for `put_capacity_lru`: a capacity-1 cache holds at most one
entry after a put, and two distinct inserts into a capacity-1 cache leave
only the second key. -/
theorem put_capacity_lru_witness :
    ((⟨1, 300, []⟩ : SearchResultCache ℕ).put 0 none (some "B") "Rare" [] 5).entries.length ≤ 1 ∧
    (applyPuts 0 [(putCallA, (1 : ℕ)), (putCallB, 2)] ⟨1, 300, []⟩).entries.map Prod.fst =
      ([(putCallA, (1 : ℕ)), (putCallB, 2)].map (fun pc => putCallKey pc.1)).drop
        ([(putCallA, (1 : ℕ)), (putCallB, 2)].length - 1) :=
  ⟨put_capacity_lru.1 ℕ ⟨1, 300, []⟩ 0 none (some "B") "Rare" [] 5 (by decide),
   put_capacity_lru.2 ℕ 1 300 0 [(putCallA, 1), (putCallB, 2)] (by decide) (by decide)⟩

/-! ## Enabled-flag default divergence (C10) -/

/-- The function `tier_stats` depends on the modifier list only through its
`enabledWithId` filtrate (an empty list has an empty filtrate, so the
leading `if modifiers:` guard adds no further dependence). -/
theorem tier_stats_congr_filter (t : ℕ) (mods1 mods2 : List Modifier)
    (h : mods1.filter enabledWithId = mods2.filter enabledWithId) :
    tier_stats t mods1 = tier_stats t mods2 := by
  match t with
  | 0 =>
    rcases mods1 with _ | ⟨a, as⟩ <;> rcases mods2 with _ | ⟨b, bs⟩
    · rfl
    · have h2 : (b :: bs).filter enabledWithId = [] := by simpa using h.symm
      simp [tier_stats, h2]
    · have h2 : (a :: as).filter enabledWithId = [] := by simpa using h
      simp [tier_stats, h2]
    · simp only [tier_stats, List.isEmpty_cons]
      rw [h]
  | 1 =>
    rcases mods1 with _ | ⟨a, as⟩ <;> rcases mods2 with _ | ⟨b, bs⟩
    · rfl
    · have h2 : (b :: bs).filter enabledWithId = [] := by simpa using h.symm
      simp [tier_stats, h2]
    · have h2 : (a :: as).filter enabledWithId = [] := by simpa using h
      simp [tier_stats, h2]
    · simp only [tier_stats, List.isEmpty_cons]
      rw [h]
  | 2 =>
    rcases mods1 with _ | ⟨a, as⟩ <;> rcases mods2 with _ | ⟨b, bs⟩
    · rfl
    · have h2 : (b :: bs).filter enabledWithId = [] := by simpa using h.symm
      simp [tier_stats, h2]
    · have h2 : (a :: as).filter enabledWithId = [] := by simpa using h
      simp [tier_stats, h2]
    · simp only [tier_stats, List.isEmpty_cons]
      rw [h]
  | (n + 3) => rfl

/-- A modifier dict that has no `enabled` key. -/
def noKeyMod : Modifier := ⟨some "explicit.stat_x", none, some 10, "+10 to maximum Life"⟩

def c10Query (t : ℕ) (mods : List Modifier) : TradeQuery :=
  build_tiered_query t none (some "Belt") mods none none none none none none
    none none none none none none none none (some "Rare")

set_option maxRecDepth 100000 in
/-- C10 counterexample: for an input whose only modifier lacks an
`enabled` key and the same input without it, every tier's remote query is
identical, yet the cache keys differ — so the two inputs do NOT map to the
same cache entry, and they do NOT issue different remote queries, contrary
to the claim's consequence. -/
theorem enabled_default_counterexample :
    c10Query 0 [noKeyMod] = c10Query 0 [] ∧
    c10Query 1 [noKeyMod] = c10Query 1 [] ∧
    c10Query 2 [noKeyMod] = c10Query 2 [] ∧
    c10Query 3 [noKeyMod] = c10Query 3 [] ∧
    make_key none (some "Belt") "Rare" [noKeyMod] ≠
      make_key none (some "Belt") "Rare" [] := by
  refine ⟨?_, ?_, ?_, ?_, ?_⟩ <;> decide

/-- C10 (amended): a modifier without an `enabled` key is treated as
enabled by the cache key (it stays in the fingerprint's id list) but as
disabled by `build_tiered_query` (excluded from every tier's stat
filters); consequently two search inputs that differ only in such
modifiers issue identical remote queries at every tier while receiving
different cache fingerprints whenever the digest distinguishes their id
lists. -/
theorem enabled_default_divergence (m : Modifier) (hm : m.enabled = none) :
    enabledForKey m = true ∧
    enabledWithId m = false ∧
    (∀ mods : List Modifier,
      (mods ++ [m]).filter enabledForKey = mods.filter enabledForKey ++ [m]) ∧
    (∀ (t : ℕ) (mods : List Modifier),
      tier_stats t (mods ++ [m]) = tier_stats t mods) ∧
    (∀ (t : ℕ) (n b : Option String) (mods : List Modifier)
       (il sc : Option ℤ) (pd ed : Option ℚ) (gl qu : Option ℤ)
       (ar ev es bl sp : Option ℤ) (asp cc : Option ℚ) (co : Option Bool)
       (ra : Option String),
      build_tiered_query t n b (mods ++ [m]) il sc pd ed gl qu ar ev es bl sp
          asp cc co ra =
        build_tiered_query t n b mods il sc pd ed gl qu ar ev es bl sp
          asp cc co ra) := by
  have h1 : enabledForKey m = true := by
    unfold enabledForKey
    rw [hm]
    rfl
  have h2 : enabledWithId m = false := by
    unfold enabledWithId
    rw [hm]
    rfl
  have h4 : ∀ (t : ℕ) (mods : List Modifier),
      tier_stats t (mods ++ [m]) = tier_stats t mods := by
    intro t mods
    apply tier_stats_congr_filter
    simp [List.filter_append, h2]
  refine ⟨h1, h2, ?_, h4, ?_⟩
  · intro mods
    simp [List.filter_append, h1]
  · intro t n b mods il sc pd ed gl qu ar ev es bl sp asp cc co ra
    unfold build_tiered_query
    rw [h4 t mods]

/-- Witness for `enabled_default_divergence` at a concrete modifier. -/
theorem enabled_default_divergence_witness :
    enabledForKey noKeyMod = true ∧
    enabledWithId noKeyMod = false ∧
    tier_stats 1 ([] ++ [noKeyMod]) = tier_stats 1 [] :=
  ⟨(enabled_default_divergence noKeyMod rfl).1,
   (enabled_default_divergence noKeyMod rfl).2.1,
   (enabled_default_divergence noKeyMod rfl).2.2.2.1 1 []⟩

/-! ## Orchestrator lemmas -/

/-- The ghost log carried by either outcome of the retry loop. -/
def attemptLog : AttemptOutcome → List RemoteCall
  | .raised _ _ l => l
  | .done _ _ _ l => l

theorem mem_log_snoc {log : List RemoteCall} {t u : ℕ} {q q' : TradeQuery}
    (h : RemoteCall.search u q' ∈ log ++ [RemoteCall.search t q]) :
    RemoteCall.search u q' ∈ log ∨ u = t := by
  rcases List.mem_append.mp h with h1 | h1
  · exact Or.inl h1
  · right
    cases List.mem_singleton.mp h1
    rfl

/-- Every search the retry loop logs carries the tier it ran for. -/
theorem attemptLoop_log (o : Oracle) (t : ℕ) (q : TradeQuery) :
    ∀ (fuel sIdx searches : ℕ) (log : List RemoteCall) (u : ℕ) (q' : TradeQuery),
      RemoteCall.search u q' ∈ attemptLog (attemptLoop o t q fuel sIdx searches log) →
      RemoteCall.search u q' ∈ log ∨ u = t := by
  intro fuel
  induction fuel with
  | zero =>
    intro sIdx searches log u q' h
    cases hs : o.search sIdx with
    | raises =>
      simp only [attemptLoop, hs, attemptLog] at h
      exact mem_log_snoc h
    | returns r =>
      simp only [attemptLoop, hs] at h
      split at h <;> simp only [attemptLog] at h <;> exact mem_log_snoc h
  | succ f ih =>
    intro sIdx searches log u q' h
    cases hs : o.search sIdx with
    | raises =>
      simp only [attemptLoop, hs, attemptLog] at h
      exact mem_log_snoc h
    | returns r =>
      simp only [attemptLoop, hs] at h
      split at h
      · simp only [attemptLog] at h
        exact mem_log_snoc h
      · split at h
        · rcases ih (sIdx + 1) (searches + 1)
            (log ++ [RemoteCall.search t q]) u q' h with h1 | h1
          · exact mem_log_snoc h1
          · exact Or.inr h1
        · simp only [attemptLog] at h
          exact mem_log_snoc h

/-- One tier iteration either leaves the recorded tiers unchanged with no
break, or appends exactly one entry for this tier, breaking iff that
entry's total reached the early-stop threshold. -/
theorem runTierCore_tiers (o : Oracle) (a : SearchArgs) (mr t : ℕ)
    (q : TradeQuery) (st : LoopState) :
    ((runTierCore o a mr t q st).1.tiers = st.tiers ∧
      (runTierCore o a mr t q st).2 = false) ∨
    (∃ e : TierResult, e.tier = t ∧
      (runTierCore o a mr t q st).1.tiers = st.tiers ++ [e] ∧
      (runTierCore o a mr t q st).2 = decide (5 ≤ e.total)) := by
  simp only [runTierCore]
  repeat' split
  all_goals first
    | exact Or.inl ⟨rfl, rfl⟩
    | exact Or.inr ⟨_, rfl, rfl, rfl⟩

/-- Every search logged during one tier iteration carries that tier. -/
theorem runTierCore_log (o : Oracle) (a : SearchArgs) (mr t : ℕ)
    (q : TradeQuery) (st : LoopState) :
    ∀ (u : ℕ) (q' : TradeQuery),
      RemoteCall.search u q' ∈ (runTierCore o a mr t q st).1.log →
      RemoteCall.search u q' ∈ st.log ∨ u = t := by
  intro u q' h
  simp only [runTierCore] at h
  split at h
  · exact Or.inl h
  split at h
  · exact Or.inl h
  split at h
  · exact Or.inl h
  split at h
  case _ s c l heq =>
    refine attemptLoop_log o t q mr st.sIdx st.total_searches st.log u q' ?_
    rw [heq]
    exact h
  case _ r s c l heq =>
    have hmem : RemoteCall.search u q' ∈ l →
        RemoteCall.search u q' ∈ st.log ∨ u = t := by
      intro hl
      refine attemptLoop_log o t q mr st.sIdx st.total_searches st.log u q' ?_
      rw [heq]
      exact hl
    split at h
    · exact hmem h
    · split at h
      · exact hmem h
      · split at h
        all_goals
          rcases List.mem_append.mp h with h1 | h1
          · exact hmem h1
          · exact absurd (List.mem_singleton.mp h1) (by simp)

theorem runTier_tiers (o : Oracle) (a : SearchArgs) (mr t : ℕ) (st : LoopState) :
    ((runTier o a mr t st).1.tiers = st.tiers ∧ (runTier o a mr t st).2 = false) ∨
    (∃ e : TierResult, e.tier = t ∧
      (runTier o a mr t st).1.tiers = st.tiers ++ [e] ∧
      (runTier o a mr t st).2 = decide (5 ≤ e.total)) := by
  simp only [runTier]
  exact runTierCore_tiers o a mr t _ st

theorem runTier_log (o : Oracle) (a : SearchArgs) (mr t : ℕ) (st : LoopState) :
    ∀ (u : ℕ) (q' : TradeQuery),
      RemoteCall.search u q' ∈ (runTier o a mr t st).1.log →
      RemoteCall.search u q' ∈ st.log ∨ u = t := by
  simp only [runTier]
  exact runTierCore_log o a mr t _ st

/-- Tiers 0–2 are skipped outright when the modifier list is empty
(`if tier < 3 and not modifiers: continue`), whatever the rarity. -/
theorem runTier_skip_no_mods (o : Oracle) (a : SearchArgs) (mr t : ℕ)
    (st : LoopState) (ht : t < 3) (hm : a.modifiers = []) :
    runTier o a mr t st = (st, false) := by
  simp only [runTier, runTierCore]
  split
  · rfl
  · rw [if_pos (by simp [hm, ht])]

/-- Main loop invariant: starting from a state whose recorded tiers all
sit below the early-stop threshold, are strictly ascending, and precede
every upcoming tier — with every logged search below every upcoming
tier — the finished loop's tiers are strictly ascending, only its last
entry can reach the threshold, and when an entry reaches the threshold no
logged search belongs to a later tier. -/
theorem tierLoop_invariant (o : Oracle) (a : SearchArgs) (mr : ℕ) :
    ∀ (ts : List ℕ) (st : LoopState),
      (∀ e ∈ st.tiers, e.total < 5) →
      List.Pairwise (· < ·) (st.tiers.map TierResult.tier) →
      (∀ e ∈ st.tiers, ∀ t ∈ ts, e.tier < t) →
      List.Pairwise (· < ·) ts →
      (∀ (u : ℕ) (q' : TradeQuery), RemoteCall.search u q' ∈ st.log →
        ∀ t ∈ ts, u < t) →
      (List.Pairwise (· < ·) ((tierLoop o a mr ts st).tiers.map TierResult.tier) ∧
       (∀ e ∈ (tierLoop o a mr ts st).tiers, 5 ≤ e.total →
          ∀ (u : ℕ) (q' : TradeQuery),
            RemoteCall.search u q' ∈ (tierLoop o a mr ts st).log → u ≤ e.tier) ∧
       (∀ e ∈ (tierLoop o a mr ts st).tiers.dropLast, e.total < 5)) := by
  intro ts
  induction ts with
  | nil =>
    intro st hA hB _ _ _
    refine ⟨hB, ?_, ?_⟩
    · intro e he h5
      exact absurd h5 (by have := hA e he; omega)
    · intro e he
      exact hA e (List.dropLast_subset _ he)
  | cons t ts ih =>
    intro st hA hB hC hD hE
    have hrt := runTier_tiers o a mr t st
    have hrl := runTier_log o a mr t st
    have hcons : tierLoop o a mr (t :: ts) st =
        (if (runTier o a mr t st).2 = true then (runTier o a mr t st).1
         else tierLoop o a mr ts (runTier o a mr t st).1) := rfl
    rw [hcons]
    rcases hrt with ⟨htiers, hbrk⟩ | ⟨e, het, htiers, hbrk⟩
    · rw [hbrk]
      simp only [Bool.false_eq_true, if_false]
      refine ih (runTier o a mr t st).1 ?_ ?_ ?_ (hD.of_cons) ?_
      · rw [htiers]; exact hA
      · rw [htiers]; exact hB
      · rw [htiers]
        intro e' he' u hu
        exact hC e' he' u (List.mem_cons_of_mem t hu)
      · intro u q' hq v hv
        rcases hrl u q' hq with h1 | h1
        · exact hE u q' h1 v (List.mem_cons_of_mem t hv)
        · subst h1
          exact (List.pairwise_cons.mp hD).1 v hv
    · by_cases h5 : 5 ≤ e.total
      · have hb : (runTier o a mr t st).2 = true := by
          rw [hbrk]; exact decide_eq_true h5
        rw [hb]
        simp only [if_true]
        have hall : ∀ x ∈ st.tiers, x.tier < t :=
          fun x hx => hC x hx t (List.mem_cons_self t ts)
        refine ⟨?_, ?_, ?_⟩
        · rw [htiers]
          simp only [List.map_append, List.map_cons, List.map_nil]
          rw [List.pairwise_append]
          refine ⟨hB, List.pairwise_singleton _ _, ?_⟩
          intro x hx y hy
          rcases List.mem_map.mp hx with ⟨e', he', hx'⟩
          rcases List.mem_singleton.mp hy with rfl
          rw [← hx', het]
          exact hall e' he'
        · intro e' he' h5' u q' hq
          rw [htiers] at he'
          rcases List.mem_append.mp he' with h1 | h1
          · exact absurd h5' (by have := hA e' h1; omega)
          · rcases List.mem_singleton.mp h1 with rfl
            rw [het]
            rcases hrl u q' hq with h2 | h2
            · exact le_of_lt (hE u q' h2 t (List.mem_cons_self t ts))
            · exact le_of_eq h2
        · intro e' he'
          rw [htiers, List.dropLast_concat] at he'
          exact hA e' he'
      · have hb : (runTier o a mr t st).2 = false := by
          rw [hbrk]; exact decide_eq_false h5
        rw [hb]
        simp only [Bool.false_eq_true, if_false]
        have hall : ∀ x ∈ st.tiers, x.tier < t :=
          fun x hx => hC x hx t (List.mem_cons_self t ts)
        have hts : ∀ v ∈ ts, t < v := (List.pairwise_cons.mp hD).1
        refine ih (runTier o a mr t st).1 ?_ ?_ ?_ (hD.of_cons) ?_
        · rw [htiers]
          intro e' he'
          rcases List.mem_append.mp he' with h1 | h1
          · exact hA e' h1
          · rcases List.mem_singleton.mp h1 with rfl
            omega
        · rw [htiers]
          simp only [List.map_append, List.map_cons, List.map_nil]
          rw [List.pairwise_append]
          refine ⟨hB, List.pairwise_singleton _ _, ?_⟩
          intro x hx y hy
          rcases List.mem_map.mp hx with ⟨e', he', hx'⟩
          rcases List.mem_singleton.mp hy with rfl
          rw [← hx', het]
          exact hall e' he'
        · rw [htiers]
          intro e' he' u hu
          rcases List.mem_append.mp he' with h1 | h1
          · exact hC e' h1 u (List.mem_cons_of_mem t hu)
          · rcases List.mem_singleton.mp h1 with rfl
            rw [het]
            exact hts u hu
        · intro u q' hq v hv
          rcases hrl u q' hq with h1 | h1
          · exact hE u q' h1 v (List.mem_cons_of_mem t hv)
          · subst h1
            exact hts v hv

theorem tierLoop_cons_eq (o : Oracle) (a : SearchArgs) (mr t : ℕ)
    (ts : List ℕ) (st : LoopState) :
    tierLoop o a mr (t :: ts) st =
      if (runTier o a mr t st).2 = true then (runTier o a mr t st).1
      else tierLoop o a mr ts (runTier o a mr t st).1 := rfl

theorem tierLoop_nil_eq (o : Oracle) (a : SearchArgs) (mr : ℕ) (st : LoopState) :
    tierLoop o a mr [] st = st := rfl

/-! ## Scenario inputs (spec §8) -/

/-- Scenario 1's item: a rare with four enabled modifiers. -/
def scenario1Args : SearchArgs :=
  { item_name := some "Test Item", base_type := some "Plate Belt", rarity := "Rare",
    modifiers := [⟨some "m1", some true, none, "+10 to maximum Life"⟩,
                  ⟨some "m2", some true, none, "+20% to Fire Resistance"⟩,
                  ⟨some "m3", some true, none, "+5 to Strength"⟩,
                  ⟨some "m4", some true, none, "7% increased Attack Speed"⟩],
    item_level := none, socket_count := none, linked_sockets := none,
    pdps := none, edps := none, gem_level := none, quality := none,
    armour := none, evasion := none, energy_shield := none, block := none,
    spirit := none, attack_speed := none, crit_chance := none, corrupted := none }

/-- Scenario 1's transport: tier 0 yields total 0, tier 1 total 2,
tier 2 total 7; fetches succeed. -/
def scenario1Oracle : Oracle :=
  { search := fun n =>
      match n with
      | 0 => RemoteOutcome.returns ⟨true, some "q0", 0, [], none, none⟩
      | 1 => RemoteOutcome.returns ⟨true, some "q1", 2, ["a", "b"], none, none⟩
      | _ => RemoteOutcome.returns ⟨true, some "q2", 7, ["c", "d", "e"], none, none⟩,
    fetch := fun _ => RemoteOutcome.returns ⟨true, ["L1", "L2"], some "icon.png"⟩ }

def emptySessionCache : SearchResultCache SessionResult :=
  { max_entries := 100, ttl_seconds := 300, entries := [] }

/-- The tier-0 query scenario 1 issues. -/
def scenario1Q0 : TradeQuery :=
  build_tiered_query 0 none (some "Plate Belt") scenario1Args.modifiers none
    none none none none none none none none none none none none none
    (some "Rare")

/-- The tier numbers of the remote searches in a ghost log, in order. -/
def searchTierLog (log : List RemoteCall) : List ℕ :=
  log.filterMap (fun c =>
    match c with
    | RemoteCall.search t _ => some t
    | RemoteCall.fetch _ => none)

set_option maxRecDepth 1000000 in
/-- C1: for every progressive search not served from the cache, recorded
tiers are attempted in ascending order over {0,1,2,3}; every recorded
tier except possibly the last sits below the early-stop threshold 5; and
once a recorded tier reaches the threshold, no logged remote search
belongs to a later tier.  In particular, in the spec's scenario (an item
with 4 modifiers; tier 0 total 0, tier 1 total 2, tier 2 total 7) the
search stops at tier 2 with exactly three remote searches issued. -/
theorem progressive_search_early_stop :
    (∀ (o : Oracle) (scout : Option String) (mr : ℕ) (a : SearchArgs)
       (cache : SearchResultCache SessionResult) (now : ℚ),
      (cache.get now a.item_name a.base_type a.rarity a.modifiers).1 = none →
      (List.Pairwise (· < ·)
        ((progressive_search o scout mr a cache now).result.tiers.map TierResult.tier) ∧
       (∀ e ∈ (progressive_search o scout mr a cache now).result.tiers, 5 ≤ e.total →
         ∀ (u : ℕ) (q' : TradeQuery),
           RemoteCall.search u q' ∈ (progressive_search o scout mr a cache now).log →
             u ≤ e.tier) ∧
       (∀ e ∈ (progressive_search o scout mr a cache now).result.tiers.dropLast,
         e.total < 5)))
    ∧ ((progressive_search scenario1Oracle none 2 scenario1Args
          emptySessionCache 1000).result.stopped_at_tier = 2 ∧
       (progressive_search scenario1Oracle none 2 scenario1Args
          emptySessionCache 1000).result.total_searches = 3 ∧
       (progressive_search scenario1Oracle none 2 scenario1Args
          emptySessionCache 1000).result.tiers.map TierResult.tier = [0, 1, 2] ∧
       searchTierLog (progressive_search scenario1Oracle none 2 scenario1Args
          emptySessionCache 1000).log = [0, 1, 2]) := by
  constructor
  · intro o scout mr a cache now hmiss
    simp only [progressive_search, hmiss]
    exact tierLoop_invariant o a mr [0, 1, 2, 3] initLoopState
      (fun e he => absurd he (List.not_mem_nil e))
      List.Pairwise.nil
      (fun e he => absurd he (List.not_mem_nil e))
      (by decide)
      (fun u q' hq => absurd hq (List.not_mem_nil _))
  · exact ⟨by decide, by decide, by decide, by decide⟩

set_option maxRecDepth 1000000 in
/-- Witness for `progressive_search_early_stop` at scenario 1. -/
theorem progressive_search_early_stop_witness :
    List.Pairwise (· < ·)
      ((progressive_search scenario1Oracle none 2 scenario1Args
        emptySessionCache 1000).result.tiers.map TierResult.tier) ∧
    (0 : ℕ) ≤ (mkTierEntry scenario1Args 2 7 ["L1", "L2"]).tier :=
  ⟨(progressive_search_early_stop.1 scenario1Oracle none 2 scenario1Args
      emptySessionCache 1000 rfl).1,
   (progressive_search_early_stop.1 scenario1Oracle none 2 scenario1Args
      emptySessionCache 1000 rfl).2.1
     (mkTierEntry scenario1Args 2 7 ["L1", "L2"]) (by decide) (by decide)
     0 scenario1Q0 (by decide)⟩

/-- C8 counterexample input: a single disabled modifier — the item has
zero enabled modifiers but a nonempty modifier list. -/
def c8Args : SearchArgs :=
  { item_name := some "Test", base_type := some "Plate Belt", rarity := "Rare",
    modifiers := [⟨some "m1", some false, none, "x"⟩],
    item_level := none, socket_count := none, linked_sockets := none,
    pdps := none, edps := none, gem_level := none, quality := none,
    armour := none, evasion := none, energy_shield := none, block := none,
    spirit := none, attack_speed := none, crit_chance := none, corrupted := none }

def c8Oracle : Oracle :=
  { search := fun _ => RemoteOutcome.returns ⟨true, some "q", 0, [], none, none⟩,
    fetch := fun _ => RemoteOutcome.returns ⟨true, [], none⟩ }

set_option maxRecDepth 1000000 in
/-- C8 counterexample: the item has zero enabled modifiers (its only
modifier is disabled under both readings of `enabled`), yet the session
issues remote searches for tiers 0, 1, 2 and 3 — the skip condition
tests the modifier *list*, not the enabled modifiers. -/
theorem progressive_search_disabled_mods_counterexample :
    c8Args.modifiers.filter enabledWithId = [] ∧
    c8Args.modifiers.filter (fun m => m.enabled.getD false) = [] ∧
    searchTierLog (progressive_search c8Oracle none 2 c8Args
      emptySessionCache 1000).log = [0, 1, 2, 3] := by
  exact ⟨by decide, by decide, by decide⟩

/-- C8 (amended): when the modifier list is empty, tiers 0–2 are never
attempted — every remote search the session issues belongs to tier 3. -/
theorem progressive_search_empty_mods (o : Oracle) (scout : Option String)
    (mr : ℕ) (a : SearchArgs) (cache : SearchResultCache SessionResult)
    (now : ℚ) (hm : a.modifiers = []) :
    ∀ (u : ℕ) (q' : TradeQuery),
      RemoteCall.search u q' ∈ (progressive_search o scout mr a cache now).log →
      u = 3 := by
  intro u q' h
  rcases hget : (cache.get now a.item_name a.base_type a.rarity a.modifiers).1
    with _ | e
  · simp only [progressive_search, hget] at h
    have e0 := runTier_skip_no_mods o a mr 0 initLoopState (by omega) hm
    have e1 := runTier_skip_no_mods o a mr 1 initLoopState (by omega) hm
    have e2 := runTier_skip_no_mods o a mr 2 initLoopState (by omega) hm
    rw [tierLoop_cons_eq, e0] at h
    simp only [Bool.false_eq_true, if_false] at h
    rw [tierLoop_cons_eq, e1] at h
    simp only [Bool.false_eq_true, if_false] at h
    rw [tierLoop_cons_eq, e2] at h
    simp only [Bool.false_eq_true, if_false] at h
    rw [tierLoop_cons_eq] at h
    have hlog : RemoteCall.search u q' ∈ (runTier o a mr 3 initLoopState).1.log := by
      rcases hb : (runTier o a mr 3 initLoopState).2 with _ | _
      · rw [hb] at h
        simp only [Bool.false_eq_true, if_false, tierLoop_nil_eq] at h
        exact h
      · rw [hb] at h
        simp only [if_true] at h
        exact h
    rcases runTier_log o a mr 3 initLoopState u q' hlog with h1 | h1
    · exact absurd h1 (List.not_mem_nil _)
    · exact h1
  · simp only [progressive_search, hget] at h
    exact absurd h (List.not_mem_nil _)

set_option maxRecDepth 1000000 in
/-- Witness for `progressive_search_empty_mods`: a modifier-free rare
issues a tier-3 search, and the theorem pins its tier to 3. -/
theorem progressive_search_empty_mods_witness : (3 : ℕ) = 3 :=
  progressive_search_empty_mods c8Oracle none 2
    { c8Args with modifiers := [] } emptySessionCache 1000 rfl 3
    (build_tiered_query 3 none (some "Plate Belt") [] none none none none
      none none none none none none none none none none (some "Rare"))
    (by decide)

/-- C9 scenario transport: the tier-0 search raises, the tier-1 search is
rate-limited on both attempts (`max_retries = 1`), and the tier-2 search
succeeds with enough results to stop early. -/
def c9Oracle : Oracle :=
  { search := fun n =>
      match n with
      | 0 => RemoteOutcome.raises
      | 1 => RemoteOutcome.returns
          ⟨false, none, 0, [], some "Rate limited. Try again at 12:00", some 5⟩
      | 2 => RemoteOutcome.returns
          ⟨false, none, 0, [], some "Rate limited. Try again at 12:00", some 5⟩
      | _ => RemoteOutcome.returns ⟨true, some "q2", 7, ["c", "d", "e"], none, none⟩,
    fetch := fun _ => RemoteOutcome.returns ⟨true, ["L1", "L2"], some "icon.png"⟩ }

set_option maxRecDepth 1000000 in
/-- C9: for every run not served from the cache — whatever the transport
does, including raising calls and exhausted retries — `progressive_search`
returns a result value whose `success` flag is true and whose `error`
field is set exactly when no tier produced a recorded result.  In
particular, with a raising tier-0 search and tier-1 retries exhausted,
the loop still proceeds and records tier 2 with no error — a tier's
failure is non-fatal and no exception escapes (the embedded
`progressive_search` is a total function for every oracle). -/
theorem progressive_search_failure_semantics :
    (∀ (o : Oracle) (scout : Option String) (mr : ℕ) (a : SearchArgs)
       (cache : SearchResultCache SessionResult) (now : ℚ),
      (cache.get now a.item_name a.base_type a.rarity a.modifiers).1 = none →
      ((progressive_search o scout mr a cache now).result.success = true ∧
       (((progressive_search o scout mr a cache now).result.error ≠ none) ↔
         (progressive_search o scout mr a cache now).result.tiers = [])))
    ∧ ((progressive_search c9Oracle none 1 scenario1Args
          emptySessionCache 1000).result.error = none ∧
       (progressive_search c9Oracle none 1 scenario1Args
          emptySessionCache 1000).result.tiers.map TierResult.tier = [2] ∧
       (progressive_search c9Oracle none 1 scenario1Args
          emptySessionCache 1000).result.total_searches = 3 ∧
       searchTierLog (progressive_search c9Oracle none 1 scenario1Args
          emptySessionCache 1000).log = [0, 1, 1, 2]) := by
  constructor
  · intro o scout mr a cache now hmiss
    constructor
    · simp only [progressive_search, hmiss]
    · rcases htl : (tierLoop o a mr [0, 1, 2, 3] initLoopState).tiers with _ | ⟨x, xs⟩
      · simp [progressive_search, hmiss, htl]
      · simp [progressive_search, hmiss, htl]
  · exact ⟨by decide, by decide, by decide, by decide⟩

set_option maxRecDepth 1000000 in
/-- Witness for `progressive_search_failure_semantics` at the C9
scenario. -/
theorem progressive_search_failure_semantics_witness :
    (progressive_search c9Oracle none 1 scenario1Args
      emptySessionCache 1000).result.success = true ∧
    ¬ ((progressive_search c9Oracle none 1 scenario1Args
      emptySessionCache 1000).result.error ≠ none) :=
  ⟨(progressive_search_failure_semantics.1 c9Oracle none 1 scenario1Args
      emptySessionCache 1000 rfl).1,
   fun he =>
     (by decide :
       ¬ (progressive_search c9Oracle none 1 scenario1Args
            emptySessionCache 1000).result.tiers = [])
       ((progressive_search_failure_semantics.1 c9Oracle none 1 scenario1Args
          emptySessionCache 1000 rfl).2.mp he)⟩

set_option maxRecDepth 1000000 in
/-- C4: a cache hit short-circuits `progressive_search`: the result is
rebuilt from the stored payload with `from_cache = true`, zero searches
counted and no remote call issued; hence an identical query repeated
while the first call's entry is within the TTL window triggers no remote
call on the second run. -/
theorem progressive_search_cache_hit :
    (∀ (o : Oracle) (scout : Option String) (mr : ℕ) (a : SearchArgs)
       (cache : SearchResultCache SessionResult) (now : ℚ)
       (e : CachedSearchResult SessionResult),
      (cache.get now a.item_name a.base_type a.rarity a.modifiers).1 = some e →
      ((progressive_search o scout mr a cache now).result.from_cache = true ∧
       (progressive_search o scout mr a cache now).result.total_searches = 0 ∧
       (progressive_search o scout mr a cache now).log = []))
    ∧ (∀ (o1 o2 : Oracle) (s1 s2 : Option String) (mr1 mr2 : ℕ)
         (a : SearchArgs) (N : ℕ) (ttl now1 now2 : ℚ),
        1 ≤ N →
        now2 - now1 ≤ ttl →
        (progressive_search o1 s1 mr1 a ⟨N, ttl, []⟩ now1).result.tiers.isEmpty
          = false →
        ((progressive_search o2 s2 mr2 a
            (progressive_search o1 s1 mr1 a ⟨N, ttl, []⟩ now1).cache
            now2).result.from_cache = true ∧
         (progressive_search o2 s2 mr2 a
            (progressive_search o1 s1 mr1 a ⟨N, ttl, []⟩ now1).cache
            now2).result.total_searches = 0 ∧
         (progressive_search o2 s2 mr2 a
            (progressive_search o1 s1 mr1 a ⟨N, ttl, []⟩ now1).cache
            now2).log = [])) := by
  constructor
  · intro o scout mr a cache now e hhit
    refine ⟨?_, ?_, ?_⟩ <;> simp [progressive_search, hhit]
  · intro o1 o2 s1 s2 mr1 mr2 a N ttl now1 now2 _ httl htiers
    have hget1 : ((⟨N, ttl, []⟩ : SearchResultCache SessionResult).get now1
        a.item_name a.base_type a.rarity a.modifiers).1 = none := rfl
    have hgetc : ((⟨N, ttl, []⟩ : SearchResultCache SessionResult).get now1
        a.item_name a.base_type a.rarity a.modifiers).2 = ⟨N, ttl, []⟩ := rfl
    simp only [progressive_search, hget1] at htiers
    have hcache : (progressive_search o1 s1 mr1 a ⟨N, ttl, []⟩ now1).cache =
        ⟨N, ttl, [(make_key a.item_name a.base_type a.rarity a.modifiers,
          ⟨now1, (progressive_search o1 s1 mr1 a ⟨N, ttl, []⟩ now1).result⟩)]⟩ := by
      simp only [progressive_search, hget1, hgetc, htiers, Bool.not_false,
        Bool.true_or, if_true, SearchResultCache.put, popWhileFull,
        List.any_nil, Bool.false_eq_true, if_false, List.nil_append]
    have hget2 : ((progressive_search o1 s1 mr1 a ⟨N, ttl, []⟩ now1).cache.get
        now2 a.item_name a.base_type a.rarity a.modifiers).1 =
        some ⟨now1, (progressive_search o1 s1 mr1 a ⟨N, ttl, []⟩ now1).result⟩ := by
      rw [hcache]
      simp only [SearchResultCache.get, List.lookup, beq_self_eq_true]
      rw [if_neg (not_lt.mpr httl)]
    generalize hO : progressive_search o1 s1 mr1 a ⟨N, ttl, []⟩ now1 = out1 at hget2 ⊢
    refine ⟨?_, ?_, ?_⟩ <;> simp [progressive_search, hget2]

set_option maxRecDepth 1000000 in
/-- Witness for `progressive_search_cache_hit`: running scenario 1 and
repeating the identical query 100 seconds later (TTL 300) serves the
second call from the cache with no remote searches. -/
theorem progressive_search_cache_hit_witness :
    (progressive_search scenario1Oracle none 2 scenario1Args
        (progressive_search scenario1Oracle none 2 scenario1Args
          ⟨100, 300, []⟩ 1000).cache 1100).result.from_cache = true ∧
    (progressive_search scenario1Oracle none 2 scenario1Args
        (progressive_search scenario1Oracle none 2 scenario1Args
          ⟨100, 300, []⟩ 1000).cache 1100).log = [] :=
  ⟨((progressive_search_cache_hit.2 scenario1Oracle scenario1Oracle none none
      2 2 scenario1Args 100 300 1000 1100 (by norm_num) (by norm_num)
      (by decide)).1),
   ((progressive_search_cache_hit.2 scenario1Oracle scenario1Oracle none none
      2 2 scenario1Args 100 300 1000 1100 (by norm_num) (by norm_num)
      (by decide)).2.2)⟩
